import Mathlib

/-!
# Crypto Price Tracker — shallow embedding of `main.py`

This file embeds the polling-fetch-alert-log core of the crypto price
tracker (`main.py`) in Lean 4 and proves the specification claims about it.

Modelling conventions:
* Python `dict`s are association lists `List (String × α)`; building a dict
  entry-by-entry is `dictInsert` (update in place if the key exists, append
  otherwise — Python insertion-order semantics), and `dict.get` is
  `List.lookup` (first match; keys are unique in an actual dict).
* Python `float` prices are modelled by `Rat`.
* An absent price (`None` in Python) is `Option.none`, so a price mapping is
  `List (String × Option Rat)`.
* Effects are passed as explicit oracles: the network is a function from a
  request to a response-or-error, a log append outcome is an
  `Except String Unit`, per-message Telegram delivery is a function
  `String → Except String Unit`.  An uncaught Python exception is an
  `Except.error` result.
-/

/-- The static symbol→identifier table `COINGECKO_IDS` from `main.py`. -/
def COINGECKO_IDS : List (String × String) :=
  [("BTC", "bitcoin"), ("ETH", "ethereum"), ("BNB", "binancecoin"),
   ("ADA", "cardano"), ("SOL", "solana"), ("XRP", "ripple"),
   ("DOT", "polkadot"), ("DOGE", "dogecoin")]

/-- Python `str.upper()`: character-wise uppercasing (kernel-reducible,
unlike `String.toUpper`). -/
def pyUpper (s : String) : String :=
  ⟨s.data.map Char.toUpper⟩

/-- Python `str.lower()`: character-wise lowercasing. -/
def pyLower (s : String) : String :=
  ⟨s.data.map Char.toLower⟩

/-- Python `str.strip()`: drop whitespace from both ends. -/
def pyStrip (s : String) : String :=
  ⟨((s.data.dropWhile Char.isWhitespace).reverse.dropWhile
      Char.isWhitespace).reverse⟩

/-- `to_id` from `main.py`: uppercase the symbol, look it up in the static
table, and fall back to the lowercased symbol. -/
def to_id (symbol : String) : String :=
  let symbol := pyUpper symbol
  (List.lookup symbol COINGECKO_IDS).getD (pyLower symbol)

/-- Python dict assignment `d[k] = v` on an association list: update the
value in place if the key is present (keeping its position), otherwise
append the new binding at the end. -/
def dictInsert {α : Type} : List (String × α) → String → α → List (String × α)
  | [], k, v => [(k, v)]
  | (k', v') :: rest, k, v =>
    if k' = k then (k', v) :: rest else (k', v') :: dictInsert rest k v

/-- A price request to the provider: the comma-joined `ids` parameter and the
quote currency (`vs_currencies`). -/
structure PriceRequest where
  ids_param : String
  vs : String
deriving DecidableEq, Repr

/-- A provider response: HTTP status plus the JSON body, shaped
`{identifier: {currency: number}}`. -/
structure PriceResponse where
  status : Nat
  data : List (String × List (String × Rat))
deriving Repr

/-- `CryptoTracker.fetch_prices` from `main.py`, with the network as an
explicit oracle.  Returns the list of requests issued together with the
fetch outcome: the code always issues exactly one request
(`requests.get(...)` is unconditional), `raise_for_status` turns a
`status ≥ 400` response into an error, and on success each tracked symbol is
mapped to the price found under its resolved identifier and the quote
currency, or `none` when either key is missing. -/
def fetch_prices (symbols : List String) (vs : String)
    (net : PriceRequest → Except String PriceResponse) :
    List PriceRequest × Except String (List (String × Option Rat)) :=
  let ids := symbols.map to_id
  let req : PriceRequest := ⟨String.intercalate "," ids, vs⟩
  match net req with
  | .error e => ([req], .error e)
  | .ok resp =>
    if 400 ≤ resp.status then
      ([req], .error ("HTTP " ++ toString resp.status))
    else
      ([req],
       .ok ((symbols.zip ids).foldl
         (fun out si =>
           dictInsert out si.1
             (List.lookup si.2 resp.data |>.getD [] |> List.lookup vs))
         []))

/-- The alert string built by `AlertManager.check` for one crossing. -/
def renderAlert (sym : String) (price thr : Rat) : String :=
  s!"ALERT: {sym} price {price} <= threshold {thr}"

/-- `AlertManager.check` from `main.py`: iterate the price mapping in order;
skip absent prices; for a symbol with a configured threshold, emit an alert
message when `price ≤ threshold`. -/
def check (prices : List (String × Option Rat))
    (thresholds : List (String × Rat)) : List String :=
  prices.foldl
    (fun messages sp =>
      match sp.2 with
      | none => messages
      | some price =>
        match List.lookup sp.1 thresholds with
        | none => messages
        | some thr =>
          if price ≤ thr then messages ++ [renderAlert sp.1 price thr]
          else messages)
    []

/-- The triples `(symbol, price, threshold)` for which `check` emits an
alert, in emission order: the same traversal as `check`, kept structured. -/
def checkKeeps (prices : List (String × Option Rat))
    (thresholds : List (String × Rat)) : List (String × Rat × Rat) :=
  prices.filterMap
    (fun sp =>
      match sp.2 with
      | none => none
      | some price =>
        match List.lookup sp.1 thresholds with
        | none => none
        | some thr =>
          if price ≤ thr then some (sp.1, price, thr) else none)

/-- `portfolio_value` from `main.py`: fold over the holdings; a held symbol
whose (uppercased) key has no non-absent price is skipped, otherwise
`price × quantity` is added to the running total. -/
def portfolio_value (prices : List (String × Option Rat))
    (holdings : List (String × Rat)) : Rat :=
  holdings.foldl
    (fun total sq =>
      match (List.lookup (pyUpper sq.1) prices).join with
      | none => total
      | some p => total + p * sq.2)
    0

/-- Python truthiness of an optional string credential: `None` and the empty
string are falsy. -/
def strTruthy : Option String → Bool
  | none => false
  | some s => !s.isEmpty

/-- The observable trace of `AlertManager.send_telegram`: which messages a
delivery was attempted for, and the error lines printed for failures. -/
structure NotifyTrace where
  attempts : List String
  printed : List String
deriving DecidableEq, Repr

/-- The per-message delivery loop of `send_telegram`: each message is
attempted; a failure is caught and printed, and the loop continues. -/
def sendLoop (deliver : String → Except String Unit) :
    List String → NotifyTrace
  | [] => ⟨[], []⟩
  | m :: rest =>
    let r := sendLoop deliver rest
    match deliver m with
    | .ok _ => ⟨m :: r.attempts, r.printed⟩
    | .error e => ⟨m :: r.attempts, ("Failed to send telegram: " ++ e) :: r.printed⟩

/-- `AlertManager.send_telegram` from `main.py`: a no-op when either
credential is absent (Python-falsy), otherwise attempt each message in
order, catching per-message failures. -/
def send_telegram (token chatId : Option String)
    (deliver : String → Except String Unit) (messages : List String) :
    NotifyTrace :=
  if strTruthy token ∧ strTruthy chatId then sendLoop deliver messages
  else ⟨[], []⟩

/-- The CSV header written by `CryptoTracker._ensure_csv`:
`["timestamp"] + [f"{s}_{vs_currency}" for s in symbols]`. -/
def headerRow (symbols : List String) (vs : String) : List String :=
  "timestamp" :: symbols.map (fun s => s ++ "_" ++ vs)

/-- A cell handed to `csv.writer.writerow`: the timestamp string, a price, or
Python `None`. -/
inductive CsvValue where
  | str : String → CsvValue
  | num : Rat → CsvValue
  | null : CsvValue
deriving DecidableEq, Repr

/-- How Python's `csv.writer` renders one cell: `None` becomes the empty
field, numbers their decimal text. -/
def csvRender : CsvValue → String
  | .str s => s
  | .num q => toString q
  | .null => ""

/-- The row built by `CryptoTracker.log`:
`[now_iso()] + [prices.get(s) for s in self.symbols]`.  `prices.get(s)` is
`None` both when the key is missing and when the stored value is `None`. -/
def logRow (ts : String) (symbols : List String)
    (prices : List (String × Option Rat)) : List CsvValue :=
  .str ts :: symbols.map (fun s =>
    match (List.lookup s prices).join with
    | some p => .num p
    | none => .null)

/-- The row as persisted on disk, after `csv.writer` rendering. -/
def persistedRow (ts : String) (symbols : List String)
    (prices : List (String × Option Rat)) : List String :=
  (logRow ts symbols prices).map csvRender

/-- A CSV log target: `none` when the file does not exist, otherwise its
rows. -/
def CsvFile : Type := Option (List (List String))

/-- `CryptoTracker._ensure_csv`: write the header only when the target does
not yet exist; an existing file is left untouched. -/
def ensure_csv (file : CsvFile) (symbols : List String) (vs : String) :
    CsvFile :=
  match file with
  | none => some [headerRow symbols vs]
  | some rows => some rows

/-- Opening in append mode (`"a"`) and writing one row: creates the file when
absent, otherwise adds the row at the end. -/
def appendRow (file : CsvFile) (row : List String) : CsvFile :=
  some ((Option.getD file []) ++ [row])

/-- The file effect of `CryptoTracker.log` when a csv path is configured:
append the rendered observation row. -/
def logWrite (file : CsvFile) (ts : String) (symbols : List String)
    (prices : List (String × Option Rat)) : CsvFile :=
  appendRow file (persistedRow ts symbols prices)

/-- Python `t.split(":", 1)` guarded by `":" in t`: `none` when the string
has no colon, otherwise the parts before and after the first colon. -/
def splitOnceColon (t : String) : Option (String × String) :=
  match t.splitOn ":" with
  | [] => none
  | [_] => none
  | p :: rest => some (p, String.intercalate ":" rest)

/-- Digits of a decimal string as a `Nat`; `none` when any character is not a
digit (the empty string yields `some 0`, callers guard emptiness). -/
def decDigits? (s : String) : Option Nat :=
  if s.data.all Char.isDigit then
    some (s.data.foldl (fun n c => 10 * n + (c.toNat - 48)) 0)
  else none

/-- Models Python `float(...)` on plain signed decimal literals
(`"3"`, `"-2.5"`, `"1."`, `".5"`); other inputs fail, which the spec parsers
treat as a skipped entry. -/
def pyFloat (s : String) : Option Rat :=
  let sb : Rat × String :=
    match s.data with
    | '-' :: rest => (-1, String.mk rest)
    | '+' :: rest => (1, String.mk rest)
    | _ => (1, s)
  match sb.2.splitOn "." with
  | [ip] =>
    if ip.isEmpty then none
    else (decDigits? ip).map (fun n => sb.1 * n)
  | [ip, fp] =>
    if ip.isEmpty ∧ fp.isEmpty then none
    else
      match decDigits? ip, decDigits? fp with
      | some n, some f =>
        some (sb.1 * ((n : Rat) + (f : Rat) / (10 : Rat) ^ fp.length))
      | _, _ => none
  | _ => none

/-- `parse_thresholds` from `main.py`: for each entry, skip it when it has no
colon; split on the first colon; trim and uppercase the symbol; parse the
trimmed value as a float, skipping the entry when parsing fails. -/
def parse_thresholds (texts : Option (List String)) : List (String × Rat) :=
  (texts.getD []).foldl
    (fun out t =>
      match splitOnceColon t with
      | none => out
      | some sv =>
        match pyFloat (pyStrip sv.2) with
        | none => out
        | some v => dictInsert out (pyUpper (pyStrip sv.1)) v)
    []

/-- `parse_holdings` from `main.py`: textually the same procedure as
`parse_thresholds`, embedded separately. -/
def parse_holdings (texts : Option (List String)) : List (String × Rat) :=
  (texts.getD []).foldl
    (fun out t =>
      match splitOnceColon t with
      | none => out
      | some sv =>
        match pyFloat (pyStrip sv.2) with
        | none => out
        | some v => dictInsert out (pyUpper (pyStrip sv.1)) v)
    []

/-- One display cell of the tick line: `prices.get(s, 'N/A')` under an
f-string — a missing key shows `N/A`, a present-but-`None` value shows
`None`. -/
def displayCell (prices : List (String × Option Rat)) (s : String) : String :=
  match List.lookup s prices with
  | none => "N/A"
  | some none => "None"
  | some (some p) => toString p

/-- The printed tick line `f"[{ts}] {display}"` of the poll loop. -/
def renderTick (ts : String) (symbols : List String)
    (prices : List (String × Option Rat)) : String :=
  "[" ++ ts ++ "] " ++
    String.intercalate " | "
      (symbols.map (fun s => s ++ ": " ++ displayCell prices s))

/-- What the loop does after a tick: sleep and iterate again, or stop
(run-once mode). -/
inductive LoopNext where
  | sleep : LoopNext
  | stop : LoopNext
deriving DecidableEq, Repr

/-- The observable outcome of one successful tick of the poll loop. -/
structure TickOut where
  prices : List (String × Option Rat)
  display : String
  logAttempted : Bool
  alerts : List String
  telegram : NotifyTrace
  portfolio : Option Rat
  next : LoopNext
deriving DecidableEq, Repr

/-- The all-absent observation the loop substitutes on a fetch failure:
`{s: None for s in tracker.symbols}`. -/
def allAbsent (symbols : List String) : List (String × Option Rat) :=
  symbols.map (fun s => (s, none))

/-- One iteration of the `while True` loop in `main` (`main.py` lines
217–245), with the fetch outcome, the log-append outcome and per-message
delivery passed as oracles.  A fetch error is caught and replaced by the
all-absent observation; the tick line is rendered; when a csv path is
configured the log append is attempted and an error raised there is NOT
caught — it propagates (`Except.error`) and the loop aborts.  Otherwise
alerts are evaluated, Telegram delivery is attempted when there are
messages, the portfolio value is shown when holdings exist, and the loop
proceeds to sleep (or stops in run-once mode). -/
def tick (symbols : List String) (csvPath : Option String)
    (thresholds holdings : List (String × Rat))
    (token chatId : Option String) (runOnce : Bool) (ts : String)
    (fetchRes : Except String (List (String × Option Rat)))
    (logRes : Except String Unit)
    (deliver : String → Except String Unit) : Except String TickOut :=
  let prices := match fetchRes with
    | .ok p => p
    | .error _ => allAbsent symbols
  let out : TickOut :=
    let msgs := check prices thresholds
    { prices := prices
      display := renderTick ts symbols prices
      logAttempted := csvPath.isSome
      alerts := msgs
      telegram := if msgs.isEmpty then ⟨[], []⟩
                  else send_telegram token chatId deliver msgs
      portfolio := if holdings.isEmpty then none
                   else some (portfolio_value prices holdings)
      next := if runOnce then .stop else .sleep }
  match csvPath, logRes with
  | some _, .error e => .error e
  | _, _ => .ok out

/-! ## Helper lemmas -/

/-- `check` is the structured traversal `checkKeeps` followed by message
rendering. -/
theorem check_eq_keeps (prices : List (String × Option Rat))
    (thresholds : List (String × Rat)) :
    check prices thresholds =
      (checkKeeps prices thresholds).map
        (fun x => renderAlert x.1 x.2.1 x.2.2) := by
  suffices h : ∀ (l : List (String × Option Rat)) (acc : List String),
      l.foldl
        (fun messages sp =>
          match sp.2 with
          | none => messages
          | some price =>
            match List.lookup sp.1 thresholds with
            | none => messages
            | some thr =>
              if price ≤ thr then messages ++ [renderAlert sp.1 price thr]
              else messages)
        acc
      = acc ++ (checkKeeps l thresholds).map
          (fun x => renderAlert x.1 x.2.1 x.2.2) by
    simpa [check] using h prices []
  intro l
  induction l with
  | nil => intro acc; simp [checkKeeps]
  | cons sp rest ih =>
    intro acc
    cases hp : sp.2 with
    | none => simp [checkKeeps, List.filterMap_cons, hp, ih, checkKeeps]
    | some price =>
      cases ht : List.lookup sp.1 thresholds with
      | none => simp [checkKeeps, List.filterMap_cons, hp, ht, ih]
      | some thr =>
        by_cases hle : price ≤ thr
        · simp [checkKeeps, List.filterMap_cons, hp, ht, hle, ih]
        · simp [checkKeeps, List.filterMap_cons, hp, ht, hle, ih]

/-- Membership in `checkKeeps` characterised: a triple is kept exactly when
the symbol carries that non-absent price, has that configured threshold,
and the price is at or below it. -/
theorem mem_checkKeeps {prices : List (String × Option Rat)}
    {thresholds : List (String × Rat)} {sym : String} {p t : Rat} :
    (sym, p, t) ∈ checkKeeps prices thresholds ↔
      (sym, some p) ∈ prices ∧ List.lookup sym thresholds = some t ∧ p ≤ t := by
  simp only [checkKeeps, List.mem_filterMap]
  constructor
  · rintro ⟨⟨s, pr⟩, hmem, hf⟩
    cases pr with
    | none => simp at hf
    | some price =>
      cases ht : List.lookup s thresholds with
      | none => simp [ht] at hf
      | some thr =>
        by_cases hle : price ≤ thr
        · simp only [ht, if_pos hle, Option.some.injEq, Prod.mk.injEq] at hf
          obtain ⟨rfl, rfl, rfl⟩ := hf
          exact ⟨hmem, ht, hle⟩
        · simp [ht, hle] at hf
  · rintro ⟨hmem, ht, hle⟩
    exact ⟨(sym, some p), hmem, by simp [ht, hle]⟩

/-- In an association list with distinct keys (a Python dict), two bindings
of the same key carry the same value. -/
theorem assoc_nodup_val_eq {α : Type} {l : List (String × α)} {k : String}
    {v₁ v₂ : α} (hnd : (l.map Prod.fst).Nodup)
    (h₁ : (k, v₁) ∈ l) (h₂ : (k, v₂) ∈ l) : v₁ = v₂ := by
  induction l with
  | nil => cases h₁
  | cons a rest ih =>
    rw [List.map_cons, List.nodup_cons] at hnd
    rcases List.mem_cons.mp h₁ with h₁' | h₁' <;>
      rcases List.mem_cons.mp h₂ with h₂' | h₂'
    · exact (Prod.ext_iff.mp (h₁'.trans h₂'.symm)).2
    · have hk : (k, v₂).1 ∈ List.map Prod.fst rest :=
        List.mem_map_of_mem Prod.fst h₂'
      refine absurd ?_ hnd.1
      rw [← h₁']
      exact hk
    · have hk : (k, v₁).1 ∈ List.map Prod.fst rest :=
        List.mem_map_of_mem Prod.fst h₁'
      refine absurd ?_ hnd.1
      rw [← h₂']
      exact hk
    · exact ih hnd.2 h₁' h₂'

/-- The alerts keep their symbols in traversal order: the kept symbols form
a sublist of the price-mapping key order. -/
theorem checkKeeps_keys_sublist (prices : List (String × Option Rat))
    (thresholds : List (String × Rat)) :
    ((checkKeeps prices thresholds).map Prod.fst).Sublist
      (prices.map Prod.fst) := by
  induction prices with
  | nil => simp [checkKeeps]
  | cons sp rest ih =>
    simp only [checkKeeps, List.filterMap_cons, List.map_cons] at *
    cases hp : sp.2 with
    | none => exact ih.cons sp.1
    | some price =>
      cases ht : List.lookup sp.1 thresholds with
      | none => exact ih.cons sp.1
      | some thr =>
        by_cases hle : price ≤ thr
        · simpa [hle] using ih.cons₂ sp.1
        · simpa [hle] using ih.cons sp.1

/-- `portfolio_value` computed as a sum: each held symbol with a non-absent
price contributes `price × quantity`, the rest contribute nothing. -/
theorem portfolio_value_eq_sum (prices : List (String × Option Rat))
    (holdings : List (String × Rat)) :
    portfolio_value prices holdings =
      (holdings.filterMap
        (fun sq => ((List.lookup (pyUpper sq.1) prices).join).map
          (fun p => p * sq.2))).sum := by
  suffices h : ∀ (l : List (String × Rat)) (acc : Rat),
      l.foldl
        (fun total sq =>
          match (List.lookup (pyUpper sq.1) prices).join with
          | none => total
          | some p => total + p * sq.2)
        acc
      = acc + (l.filterMap
          (fun sq => ((List.lookup (pyUpper sq.1) prices).join).map
            (fun p => p * sq.2))).sum by
    simpa [portfolio_value] using h holdings 0
  intro l
  induction l with
  | nil => intro acc; simp
  | cons sq rest ih =>
    intro acc
    cases hj : (List.lookup (pyUpper sq.1) prices).join with
    | none =>
      simp only [List.foldl_cons, List.filterMap_cons, hj, Option.map_none']
      exact ih acc
    | some p =>
      simp only [List.foldl_cons, List.filterMap_cons, hj, Option.map_some']
      rw [ih, List.sum_cons, add_assoc]

/-- The Telegram delivery loop attempts every message, whatever the
per-message outcomes are. -/
theorem sendLoop_attempts (deliver : String → Except String Unit)
    (messages : List String) :
    (sendLoop deliver messages).attempts = messages := by
  induction messages with
  | nil => rfl
  | cons m rest ih =>
    cases hd : deliver m <;> simp [sendLoop, hd, ih]

/-- Folding log appends over an existing file only adds the rendered rows at
the end. -/
theorem logWrite_foldl (symbols : List String)
    (obs : List (String × List (String × Option Rat))) :
    ∀ rows : List (List String),
      obs.foldl (fun file o => logWrite file o.1 symbols o.2) (some rows)
        = some (rows ++ obs.map (fun o => persistedRow o.1 symbols o.2)) := by
  induction obs with
  | nil => intro rows; simp
  | cons o os ih =>
    intro rows
    simpa [logWrite, appendRow] using ih (rows ++ [persistedRow o.1 symbols o.2])

/-- `fetch_prices` always issues exactly one request, built from the
resolved identifiers and the quote currency. -/
theorem fetch_prices_requests (symbols : List String) (vs : String)
    (net : PriceRequest → Except String PriceResponse) :
    (fetch_prices symbols vs net).1 =
      [⟨String.intercalate "," (symbols.map to_id), vs⟩] := by
  rcases hnet : net ⟨String.intercalate "," (symbols.map to_id), vs⟩ with e | resp
  · simp [fetch_prices, hnet]
  · by_cases h : 400 ≤ resp.status <;> simp [fetch_prices, hnet, h]

/-! ## Claim theorems -/

/-- C1: on a tick whose price fetch raises, the orchestrator substitutes the
all-absent observation, still renders the tick line from it, still attempts
the log append exactly when logging is enabled, and (the append itself
succeeding, run-once off) proceeds to the sleep step rather than
terminating. -/
theorem C1_fetch_failure_recoverable (symbols : List String)
    (csvPath : Option String) (thresholds holdings : List (String × Rat))
    (token chatId : Option String) (ts e : String)
    (deliver : String → Except String Unit) :
    ∃ out : TickOut,
      tick symbols csvPath thresholds holdings token chatId false ts
        (.error e) (.ok ()) deliver = .ok out
      ∧ out.prices = allAbsent symbols
      ∧ out.display = renderTick ts symbols (allAbsent symbols)
      ∧ out.logAttempted = csvPath.isSome
      ∧ out.next = .sleep := by
  cases csvPath with
  | none => exact ⟨_, rfl, rfl, rfl, rfl, rfl⟩
  | some p => exact ⟨_, rfl, rfl, rfl, rfl, rfl⟩

/-- C2 counterexample: a tick whose log append raises makes the whole loop
abort (the exception is not caught inside the loop), contradicting the claim
that every per-tick error — in particular a persistence error — is contained
within its tick. -/
theorem C2_counterexample :
    tick ["BTC"] (some "prices.csv") [] [] none none false
      "2026-01-01T00:00:00Z" (.ok [("BTC", some 1)]) (.error "disk full")
      (fun _ => .ok ()) = .error "disk full" := rfl

/-- C2 (amended): fetch errors and per-message delivery failures are
contained — any tick whose log append succeeds, or that has logging
disabled, completes normally whatever the fetch and delivery oracles do —
but an error raised by the log append propagates out of the poll loop and
aborts it. -/
theorem C2_error_containment_amended :
    (∀ (symbols : List String) (path : String)
        (thresholds holdings : List (String × Rat))
        (token chatId : Option String) (runOnce : Bool) (ts : String)
        (fetchRes : Except String (List (String × Option Rat)))
        (deliver : String → Except String Unit) (e : String),
        tick symbols (some path) thresholds holdings token chatId runOnce ts
          fetchRes (.error e) deliver = .error e)
    ∧ (∀ (symbols : List String) (path : String)
        (thresholds holdings : List (String × Rat))
        (token chatId : Option String) (runOnce : Bool) (ts : String)
        (fetchRes : Except String (List (String × Option Rat)))
        (deliver : String → Except String Unit),
        ∃ out, tick symbols (some path) thresholds holdings token chatId
          runOnce ts fetchRes (.ok ()) deliver = .ok out)
    ∧ (∀ (symbols : List String)
        (thresholds holdings : List (String × Rat))
        (token chatId : Option String) (runOnce : Bool) (ts : String)
        (fetchRes : Except String (List (String × Option Rat)))
        (logRes : Except String Unit)
        (deliver : String → Except String Unit),
        ∃ out, tick symbols none thresholds holdings token chatId
          runOnce ts fetchRes logRes deliver = .ok out) := by
  refine ⟨fun _ _ _ _ _ _ _ _ _ _ _ => rfl, fun _ _ _ _ _ _ _ _ _ _ => ⟨_, rfl⟩,
    fun _ _ _ _ _ _ _ _ _ _ => ⟨_, rfl⟩⟩

/-- C3 counterexample: fetching with the empty symbol set still issues a
network request (the GET is unconditional), contradicting the claim that no
request is issued. -/
theorem C3_counterexample :
    (fetch_prices [] "usd" (fun _ => .ok ⟨200, []⟩)).1 ≠ [] := by
  rw [fetch_prices_requests]
  exact List.cons_ne_nil _ _

/-- C3 (amended): fetching with an empty symbol set issues exactly one
request (with an empty `ids` parameter); whenever that request succeeds the
returned mapping is empty. -/
theorem C3_empty_fetch_amended (vs : String)
    (net : PriceRequest → Except String PriceResponse) :
    (fetch_prices [] vs net).1 = [⟨"", vs⟩]
    ∧ (∀ resp : PriceResponse, net ⟨"", vs⟩ = .ok resp → resp.status < 400 →
        (fetch_prices [] vs net).2 = .ok []) := by
  constructor
  · simpa using fetch_prices_requests [] vs net
  · intro resp hnet hst
    have hi : String.intercalate "," ([] : List String) = "" := rfl
    simp [fetch_prices, hi, hnet, Nat.not_le.mpr hst]

/-- C3 witness: the amended theorem applied to a concrete successful
network oracle. -/
theorem C3_empty_fetch_amended_witness :
    (fetch_prices [] "usd" (fun _ => .ok ⟨200, []⟩)).1 = [⟨"", "usd"⟩]
    ∧ (fetch_prices [] "usd" (fun _ => .ok ⟨200, []⟩)).2 = .ok [] :=
  ⟨(C3_empty_fetch_amended "usd" (fun _ => .ok ⟨200, []⟩)).1,
   (C3_empty_fetch_amended "usd" (fun _ => .ok ⟨200, []⟩)).2 ⟨200, []⟩ rfl
     (by decide)⟩

/-- C4: the evaluator's messages are exactly the rendered kept triples; a
triple is kept precisely when its symbol has that non-absent price and that
configured threshold with price ≤ threshold (so equality triggers); and —
keys being distinct as in a Python dict — a symbol whose price is absent
never contributes an alert. -/
theorem C4_alert_rule (prices : List (String × Option Rat))
    (thresholds : List (String × Rat)) :
    check prices thresholds =
       (checkKeeps prices thresholds).map
         (fun x => renderAlert x.1 x.2.1 x.2.2)
    ∧ (∀ (sym : String) (p t : Rat),
        (sym, p, t) ∈ checkKeeps prices thresholds ↔
          (sym, some p) ∈ prices ∧ List.lookup sym thresholds = some t ∧
            p ≤ t)
    ∧ (∀ sym : String, (prices.map Prod.fst).Nodup → (sym, none) ∈ prices →
        ∀ p t : Rat, (sym, p, t) ∉ checkKeeps prices thresholds) := by
  refine ⟨check_eq_keeps .., fun sym p t => mem_checkKeeps, ?_⟩
  intro sym hnd habs p t hmem
  obtain ⟨hp, -, -⟩ := mem_checkKeeps.mp hmem
  exact Option.noConfusion (assoc_nodup_val_eq hnd habs hp)

/-- C4 witness: with `BTC` exactly at its threshold an alert is kept, and the
absent-price symbol `SOL` yields no alert. -/
theorem C4_alert_rule_witness :
    (("BTC", (60000 : Rat), (60000 : Rat)) ∈
      checkKeeps [("BTC", some 60000), ("SOL", none)] [("BTC", 60000), ("SOL", 10)])
    ∧ ("SOL", (5 : Rat), (10 : Rat)) ∉
        checkKeeps [("BTC", some 60000), ("SOL", none)]
          [("BTC", 60000), ("SOL", 10)] :=
  ⟨((C4_alert_rule [("BTC", some 60000), ("SOL", none)]
        [("BTC", 60000), ("SOL", 10)]).2.1 "BTC" 60000 60000).mpr
      ⟨by decide, by decide, by decide⟩,
   (C4_alert_rule [("BTC", some 60000), ("SOL", none)]
        [("BTC", 60000), ("SOL", 10)]).2.2 "SOL" (by decide) (by decide) 5 10⟩

/-- If a symbol is tracked, looking it up in the substituted all-absent
observation yields a present-but-absent price. -/
theorem lookup_allAbsent {s : String} {l : List String} (h : s ∈ l) :
    List.lookup s (allAbsent l) = some none := by
  induction l with
  | nil => cases h
  | cons a rest ih =>
    have hcons : allAbsent (a :: rest) = (a, none) :: allAbsent rest := rfl
    rw [hcons, List.lookup_cons]
    by_cases he : s = a
    · simp [he]
    · rcases List.mem_cons.mp h with rfl | h'
      · exact absurd rfl he
      · simp [beq_eq_false_iff_ne.mpr he, ih h']

/-- C5: the persisted row always has `1 + |tracked symbols|` columns — the
timestamp, then one cell per tracked symbol in tracking order, an absent
price rendering as the empty field — and in particular the all-absent
observation still fills every column. -/
theorem C5_row_fixed_columns (ts : String) (symbols : List String)
    (prices : List (String × Option Rat)) :
    (persistedRow ts symbols prices).length = 1 + symbols.length
    ∧ persistedRow ts symbols prices
        = ts :: symbols.map
            (fun s => ((List.lookup s prices).join).elim "" toString)
    ∧ persistedRow ts symbols (allAbsent symbols)
        = ts :: symbols.map (fun _ => "") := by
  refine ⟨?_, ?_, ?_⟩
  · simp [persistedRow, logRow, Nat.add_comm]
  · simp only [persistedRow, logRow, List.map_cons, List.map_map]
    refine congrArg (csvRender (.str ts) :: ·) ?_
    refine List.map_congr_left fun s _ => ?_
    simp only [Function.comp_apply]
    cases (List.lookup s prices).join <;> rfl
  · simp only [persistedRow, logRow, List.map_cons, List.map_map]
    refine congrArg (csvRender (.str ts) :: ·) ?_
    refine List.map_congr_left fun s hs => ?_
    simp [Function.comp_apply, lookup_allAbsent hs, Option.join, csvRender]

/-- C6: against a log target that already holds the header for the tracked
symbol set, `_ensure_csv` changes nothing, and appending any number of
observations only adds their rendered rows at the end — the header row is
neither duplicated nor altered. -/
theorem C6_header_stability (symbols : List String) (vs : String)
    (rest : List (List String))
    (obs : List (String × List (String × Option Rat))) :
    obs.foldl (fun file o => logWrite file o.1 symbols o.2)
      (ensure_csv (some (headerRow symbols vs :: rest)) symbols vs)
    = some (headerRow symbols vs ::
        (rest ++ obs.map (fun o => persistedRow o.1 symbols o.2))) := by
  have he : ensure_csv (some (headerRow symbols vs :: rest)) symbols vs
      = some (headerRow symbols vs :: rest) := rfl
  rw [he, logWrite_foldl]
  simp

/-- C7: the portfolio total is the sum of `price × quantity` over the held
symbols with a non-absent price — absent-price holdings contribute nothing
and raise nothing — and on the spec's concrete example the value is 1000. -/
theorem C7_portfolio_valuation :
    (∀ (prices : List (String × Option Rat)) (holdings : List (String × Rat)),
        portfolio_value prices holdings =
          (holdings.filterMap
            (fun sq => ((List.lookup (pyUpper sq.1) prices).join).map
              (fun p => p * sq.2))).sum)
    ∧ portfolio_value [("BTC", none), ("ETH", some 2000)]
        [("BTC", 1), ("ETH", 1/2)] = 1000 := by
  refine ⟨portfolio_value_eq_sum, ?_⟩
  show (0 : Rat) + 2000 * (1 / 2) = 1000
  norm_num

/-- C8: the notifier is a no-op when either credential is missing or empty,
and with credentials present it attempts every message of the batch in
order, whatever the per-message delivery outcomes are — one failure never
suppresses later attempts. -/
theorem C8_notifier_best_effort :
    (∀ (token chatId : Option String) (deliver : String → Except String Unit)
        (messages : List String),
        ¬(strTruthy token = true ∧ strTruthy chatId = true) →
        send_telegram token chatId deliver messages = ⟨[], []⟩)
    ∧ (∀ (token chatId : Option String)
        (deliver : String → Except String Unit) (messages : List String),
        strTruthy token = true → strTruthy chatId = true →
        (send_telegram token chatId deliver messages).attempts = messages) := by
  constructor
  · intro token chatId deliver messages h
    simp only [send_telegram]
    rw [if_neg h]
  · intro token chatId deliver messages h1 h2
    simp [send_telegram, h1, h2, sendLoop_attempts]

/-- C8 witness: an empty token makes the call a no-op; with credentials, a
failing delivery oracle still sees both messages attempted. -/
theorem C8_notifier_best_effort_witness :
    send_telegram (some "") (some "chat") (fun _ => .ok ()) ["m"] = ⟨[], []⟩
    ∧ (send_telegram (some "tok") (some "chat") (fun _ => .error "boom")
        ["m1", "m2"]).attempts = ["m1", "m2"] :=
  ⟨C8_notifier_best_effort.1 _ _ _ _ (by decide),
   C8_notifier_best_effort.2 _ _ _ _ (by decide) (by decide)⟩

/-- C9: the alert evaluator is a pure function — equal inputs give equal
message sequences (its inputs are values, so neither mapping can be
mutated) — its kept symbols appear in the traversal (tracking) order of the
price mapping, and its messages are exactly the rendered kept triples. -/
theorem C9_evaluator_pure :
    (∀ (p₁ p₂ : List (String × Option Rat)) (t₁ t₂ : List (String × Rat)),
        p₁ = p₂ → t₁ = t₂ → check p₁ t₁ = check p₂ t₂)
    ∧ (∀ (prices : List (String × Option Rat))
        (thresholds : List (String × Rat)),
        ((checkKeeps prices thresholds).map Prod.fst).Sublist
          (prices.map Prod.fst))
    ∧ (∀ (prices : List (String × Option Rat))
        (thresholds : List (String × Rat)),
        check prices thresholds =
          (checkKeeps prices thresholds).map
            (fun x => renderAlert x.1 x.2.1 x.2.2)) :=
  ⟨fun _ _ _ _ h1 h2 => h1 ▸ h2 ▸ rfl, checkKeeps_keys_sublist, check_eq_keeps⟩

/-- C9 witness: the determinism part applied at a concrete observation and
threshold mapping. -/
theorem C9_evaluator_pure_witness :
    check [("BTC", some 1)] [("BTC", (2 : Rat))]
      = check [("BTC", some 1)] [("BTC", (2 : Rat))] :=
  C9_evaluator_pure.1 _ _ _ _ rfl rfl

/-- C10: the threshold-spec parser and the holdings-spec parser are the same
extensional function — both split at the first colon, trim and uppercase
the symbol, parse the value as a float, and skip colon-free or non-numeric
entries. -/
theorem C10_parsers_extensionally_equal :
    ∀ texts : Option (List String),
      parse_thresholds texts = parse_holdings texts :=
  fun _ => rfl
